import Mathlib

/-!
# Verification of the `neweden` routing core

A shallow embedding of the repository's core (src/types.rs, src/builder.rs,
src/navigation.rs) together with proofs about the specified behaviour.

Modelling conventions:
* Rust `f32`/`f64` values (coordinates, security ratings, ranges) are
  modelled over `ℚ`; every constant of the source (`0.2`, `0.5`,
  `9_460_730_472_580.8`, …) is carried exactly.  The source computes
  `distance_2` as `(sqrt s)^2`, which is `s` in exact arithmetic, so squared
  distances are modelled as the sum of the coordinate squares.
* Rust `HashMap`s are modelled as association lists; `entry(..).or_insert(..)`
  updates the entry in place, insertion appends.  Only `get`-style access is
  observable in the verified operations, so the (unspecified) hash iteration
  order never shows up.
* A Rust `panic!`/`unwrap` failure is modelled by the `POut.panic`
  constructor; `usize` subtraction is modelled with its overflow check
  (the default in debug and test builds).
* The unbounded search loop of `pathfinding::prelude::dijkstra` is modelled
  with an explicit fuel parameter; the fuel `totalConnections u + 2` bounds
  the number of loop iterations (every iteration consumes one queue entry,
  and at most `1 + totalConnections u` entries are ever queued, because each
  node is expanded at most once).
-/

/- The Batteries rational-number operations are `@[irreducible]`, which
blocks `decide`-style evaluation of the exact-arithmetic model; restore the
default reducibility (the kernel re-checks every proof regardless). -/
set_option allowUnsafeReducibility true

attribute [semireducible] Rat.add Rat.mul Rat.sub Rat.inv Rat.div

namespace NewEden

/-- Rust panics as an explicit outcome (`types.rs` aborts on an unknown
id range, and `navigation.rs` uses `.unwrap()`). -/
inductive POut (α : Type) where
  | panic
  | ok (val : α)
deriving DecidableEq

/-- Rust `pub struct SystemId(pub u32)` (types.rs). -/
structure SystemId where
  val : Nat
deriving DecidableEq

/-- Rust `pub struct Security(pub f32)` (types.rs), modelled over `ℚ`. -/
structure Security where
  val : ℚ
deriving DecidableEq

/-- Rust `SecurityClass` (types.rs). -/
inductive SecurityClass where
  | Highsec
  | Lowsec
  | Nullsec
deriving DecidableEq

/-- Floor of a rational, computed with `Int.fdiv` so that it evaluates by
`decide`. -/
def ratFloorZ (q : ℚ) : ℤ := Int.fdiv q.num q.den

/-- Rust `f32::round` rounds half away from zero. -/
def rustRound (q : ℚ) : ℤ :=
  if q < 0 then -(ratFloorZ (-q + 1/2)) else ratFloorZ (q + 1/2)

/-- Rust `impl From<Security> for SecurityClass` (types.rs:79-90):
round the rating to one decimal, then bucket at `0.0` and `0.5`. -/
def SecurityClass.ofSecurity (s : Security) : SecurityClass :=
  let sec : ℚ := (rustRound (s.val * 10) : ℚ) / 10
  if sec < 0 then .Nullsec
  else if sec < 1/2 then .Lowsec
  else .Highsec

/-- Rust `JumpdriveSkills` (types.rs:138-142); the `u8` levels are modelled as
naturals (the formula below is linear, so the `< 256` bound is irrelevant). -/
structure JumpdriveSkills where
  jump_drive_calibration : Nat
  fuel_conversation : Nat
deriving DecidableEq

/-- Rust `BridgeType` (types.rs:122-127). -/
inductive BridgeType where
  | Titan (skills : JumpdriveSkills)
  | BlackOps (skills : JumpdriveSkills)
deriving DecidableEq

/-- Rust `StargateType` (types.rs:197-202). -/
inductive StargateType where
  | Local
  | Constellation
  | Regional
deriving DecidableEq

/-- Rust `WormholeType` (types.rs:205-211). -/
inductive WormholeType where
  | VeryLarge
  | Large
  | Medium
  | Small
deriving DecidableEq

/-- Rust `ConnectionType` (types.rs:102-107). -/
inductive ConnectionType where
  | Stargate (t : StargateType)
  | Bridge (t : BridgeType)
  | Wormhole (t : WormholeType)
deriving DecidableEq

/-- Rust `Connection` (types.rs:93-98); `from` and `to` are reserved in Lean,
hence `from_`/`to_`. -/
structure Connection where
  from_ : SystemId
  to_ : SystemId
  type_ : ConnectionType
deriving DecidableEq

/-- Rust `Lightyears` (types.rs:343-344). -/
structure Lightyears where
  val : ℚ
deriving DecidableEq

/-- Rust `Meters` (types.rs:393-394). -/
structure Meters where
  val : ℚ
deriving DecidableEq

/-- Rust `const LY_IN_KM: f64 = 9_460_730_472_580.8` (types.rs:347). -/
def LY_IN_KM : ℚ := 94607304725808 / 10

/-- Rust `impl From<Lightyears> for Meters` (types.rs:345-350). -/
def Meters.ofLightyears (ly : Lightyears) : Meters :=
  ⟨ly.val * LY_IN_KM * 1000⟩

/-- Rust `JumpdriveSkills::range_from_base` (types.rs:152-155):
`ly + (ly * 0.2 * jdc)`; the fuel-conservation level is not read. -/
def JumpdriveSkills.range_from_base (s : JumpdriveSkills) (ly : Lightyears) :
    Lightyears :=
  ⟨ly.val + ly.val * (1/5) * (s.jump_drive_calibration : ℚ)⟩

/-- Rust `impl Into<Lightyears> for BridgeType` (types.rs:129-136). -/
def BridgeType.lightyears : BridgeType → Lightyears
  | .BlackOps skills => skills.range_from_base ⟨4⟩
  | .Titan skills => skills.range_from_base ⟨3⟩

/-- Rust `Coordinate` (types.rs:260-265), over `ℚ`. -/
structure Coordinate where
  x : ℚ
  y : ℚ
  z : ℚ
deriving DecidableEq

/-- Rust `System` (types.rs:268-278). -/
structure System where
  id : SystemId
  name : String
  coordinate : Coordinate
  security : Security
deriving DecidableEq

/-- Rust `SystemClass` (types.rs:233-237). -/
inductive SystemClass where
  | KSpace
  | WSpace
deriving DecidableEq

/-- Rust `impl From<&System> for SystemClass` (types.rs:249-257): ids up to
`30_999_999` are known space, `31_000_000..=31_999_999` is wormhole space,
anything else is `panic!("unknown space.")`. -/
def SystemClass.fromSystem (s : System) : POut SystemClass :=
  if s.id.val ≤ 30999999 then .ok .KSpace
  else if 31000000 ≤ s.id.val ∧ s.id.val ≤ 31999999 then .ok .WSpace
  else .panic

/-- Rust `SystemMap` (types.rs:297): a `HashMap<SystemId, System>`, modelled as an
association list with unique keys maintained by `insert`. -/
abbrev SystemMap := List System

/-- Rust `HashMap::get` (first entry with the key). -/
def SystemMap.get (m : SystemMap) (k : SystemId) : Option System :=
  m.find? (fun s => decide (s.id = k))

/-- Rust `HashMap::insert`: replace the entry in place, or append a new one. -/
def SystemMap.insert : SystemMap → System → SystemMap
  | [], s => [s]
  | t :: rest, s => if t.id = s.id then s :: rest else t :: SystemMap.insert rest s

/-- Rust `impl From<Vec<System>> for SystemMap` (types.rs:308-317). -/
def SystemMap.ofList (l : List System) : SystemMap :=
  l.foldl SystemMap.insert []

/-- Rust `AdjacentMap` (types.rs:320): a `HashMap<SystemId, Vec<Connection>>`. -/
abbrev AdjacentMap := List (SystemId × List Connection)

/-- Rust `HashMap::get` on the adjacency table. -/
def AdjacentMap.get (m : AdjacentMap) (k : SystemId) : Option (List Connection) :=
  (m.find? (fun p => decide (p.1 = k))).map Prod.snd

/-- Rust `entry(connection.from).or_insert_with(Vec::new).push(connection)`
(types.rs:327-339 and builder.rs:180-186). -/
def AdjacentMap.push : AdjacentMap → Connection → AdjacentMap
  | [], c => [(c.from_, [c])]
  | p :: rest, c =>
      if p.1 = c.from_ then (p.1, p.2 ++ [c]) :: rest
      else p :: AdjacentMap.push rest c

/-- Rust `impl From<Vec<Connection>> for AdjacentMap` (types.rs:327-339). -/
def AdjacentMap.ofList (l : List Connection) : AdjacentMap :=
  l.foldl AdjacentMap.push []

/-- Rust `Universe` (types.rs:429-434).  The `rstar::RTree` field is bulk-loaded
from the values of `systems` at construction and never changes, so the
spatial index is modelled by querying `systems` directly. -/
structure Universe where
  systems : SystemMap
  connections : AdjacentMap

/-- Rust `Universe::new` (types.rs:483-492). -/
def Universe.new (systems : SystemMap) (connections : AdjacentMap) : Universe :=
  ⟨systems, connections⟩

/-- Rust `Navigatable::get_system` for `Universe` (types.rs:519-521). -/
def Universe.get_system (u : Universe) (id : SystemId) : Option System :=
  u.systems.get id

/-- Rust `Navigatable::get_connections` for `Universe` (types.rs:523-525). -/
def Universe.get_connections (u : Universe) (f : SystemId) : Option (List Connection) :=
  u.connections.get f

/-- Rust `PointDistance::distance_2` (types.rs:459-468): the source takes the
square root of the sum of squares and squares it again, which is the sum of
squares in exact arithmetic. -/
def distance2 (a b : Coordinate) : ℚ :=
  (a.x - b.x) * (a.x - b.x) + (a.y - b.y) * (a.y - b.y) + (a.z - b.z) * (a.z - b.z)

/-- The security filter inside the range query (types.rs:533-536). -/
def cynoFilter (s : System) : Bool :=
  match SecurityClass.ofSecurity s.security with
  | .Lowsec => true
  | .Nullsec => true
  | .Highsec => false

/-- Rust `Navigatable::get_systems_by_range` for `Universe` (types.rs:527-539):
`None` for an unknown origin; otherwise
`rtree.locate_within_distance(origin, range²)` (all indexed systems whose
squared distance is `≤ range²`) filtered to `Lowsec`/`Nullsec` systems. -/
def Universe.get_systems_by_range (u : Universe) (f : SystemId) (range : Meters) :
    Option (List System) :=
  match u.get_system f with
  | none => none
  | some sys =>
      some (u.systems.filter (fun s =>
        decide (distance2 s.coordinate sys.coordinate ≤ range.val * range.val)
          && cynoFilter s))

/-- Rust `ExtendedUniverse` (types.rs:568-572), with a `Universe` base as in the
claims under verification. -/
structure ExtendedUniverse where
  universe_ : Universe
  connections : AdjacentMap

/-- Rust `Navigatable::get_connections` for `ExtendedUniverse` (types.rs:606-620). -/
def ExtendedUniverse.get_connections (e : ExtendedUniverse) (f : SystemId) :
    Option (List Connection) :=
  match e.universe_.get_connections f, e.connections.get f with
  | some a, some b => some (a ++ b)
  | some a, none => some a
  | none, some b => some b
  | none, none => none

/-- Rust `Navigatable::get_system` for `ExtendedUniverse` (types.rs:602-604). -/
def ExtendedUniverse.get_system (e : ExtendedUniverse) (id : SystemId) :
    Option System :=
  e.universe_.get_system id

/-- Rust `ExtendedUniverseBuilder` (builder.rs:151-154). -/
structure ExtendedUniverseBuilder where
  universe_ : Universe
  connections : AdjacentMap

/-- Rust `ExtendedUniverseBuilder::new` (builder.rs:157-162). -/
def ExtendedUniverseBuilder.new (u : Universe) : ExtendedUniverseBuilder :=
  ⟨u, []⟩

/-- Rust `ExtendedUniverseBuilder::connection` (builder.rs:180-186). -/
def ExtendedUniverseBuilder.connection (b : ExtendedUniverseBuilder)
    (c : Connection) : ExtendedUniverseBuilder :=
  ⟨b.universe_, b.connections.push c⟩

/-- Rust `ExtendedUniverseBuilder::bridge` (builder.rs:166-178): range-query the
base universe at the bridge's lightyear range (converted to meters), treating
a failed query as an empty result, and add a `Bridge` connection from
`location` to every returned system. -/
def ExtendedUniverseBuilder.bridge (b : ExtendedUniverseBuilder)
    (location : SystemId) (type_ : BridgeType) : ExtendedUniverseBuilder :=
  ((b.universe_.get_systems_by_range location
      (Meters.ofLightyears type_.lightyears)).getD []).foldl
    (fun acc e => acc.connection ⟨location, e.id, .Bridge type_⟩) b

/-- Rust `ExtendedUniverseBuilder::build` (builder.rs:188-193). -/
def ExtendedUniverseBuilder.build (b : ExtendedUniverseBuilder) : ExtendedUniverse :=
  ⟨b.universe_, b.connections⟩

/-!
## Pathfinding engine (src/navigation.rs)
-/

/-- Rust `PathElementInternal` (navigation.rs:10-15). -/
inductive PathElementInternal where
  | Waypoint (id : SystemId)
  | System (id : SystemId)
  | Connection (t : ConnectionType)
deriving DecidableEq

/-- Rust `Path` (navigation.rs:23-29); the `universe` reference is passed to the
accessors explicitly, the iterator cursor is not part of the data. -/
structure Path where
  path : List PathElementInternal
  jump_count : Nat
  waypoints : List System
deriving DecidableEq

/-- Rust `Preference` (navigation.rs:139-143). -/
inductive Preference where
  | Shortest
  | Highsec
  | LowsecAndNullsec
deriving DecidableEq

/-- Rust `Preference::cost` (navigation.rs:145-163): `get_system(&to).unwrap()` is
a panic when the destination id is unknown. -/
def Preference.cost (p : Preference) (u : Universe) (to_ : SystemId) : POut Nat :=
  match p with
  | .Shortest => .ok 1
  | .Highsec =>
      match u.get_system to_ with
      | none => .panic
      | some s =>
          match SecurityClass.ofSecurity s.security with
          | .Highsec => .ok 1
          | .Lowsec => .ok 1000
          | .Nullsec => .ok 1000
  | .LowsecAndNullsec =>
      match u.get_system to_ with
      | none => .panic
      | some s =>
          match SecurityClass.ofSecurity s.security with
          | .Highsec => .ok 1000
          | .Lowsec => .ok 1
          | .Nullsec => .ok 1

/-- Rust `Succ` (navigation.rs:165-169); its `Hash`/`PartialEq` use only `id`. -/
structure Succ where
  id : SystemId
  via : Option ConnectionType
deriving DecidableEq

/-- The body of the successor closure (navigation.rs:217-233): one
`(Succ, Cost)` per outgoing connection, in order; a panic in `cost`
propagates. -/
def succCosts (u : Universe) (pref : Preference) :
    List Connection → POut (List (Succ × Nat))
  | [] => .ok []
  | c :: rest =>
      match pref.cost u c.to_ with
      | .panic => .panic
      | .ok k =>
          match succCosts u pref rest with
          | .panic => .panic
          | .ok l => .ok ((⟨c.to_, some c.type_⟩, k) :: l)

/-- The successor closure (navigation.rs:217-233): an absent adjacency entry
yields no successors. -/
def successor (u : Universe) (pref : Preference) (s : Succ) :
    POut (List (Succ × Nat)) :=
  match u.get_connections s.id with
  | none => .ok []
  | some conns => succCosts u pref conns

/-- A frontier entry of the search: accumulated cost and the reversed path
of `Succ` nodes (head = most recently reached node). -/
abbrev SearchEntry := Nat × List Succ

/-- Remove a minimum-cost entry from the frontier (the first one among
equal costs; `pathfinding`'s binary heap leaves the tie-break unspecified). -/
def selectMin : List SearchEntry → Option (SearchEntry × List SearchEntry)
  | [] => none
  | e :: es =>
      match selectMin es with
      | none => some (e, [])
      | some (m, rest) => if e.1 ≤ m.1 then some (e, es) else some (m, e :: rest)

/-- Total number of stored connections, used as a loop bound. -/
def totalConnections (u : Universe) : Nat :=
  (u.connections.map (fun p => p.2.length)).sum

/-- The Dijkstra loop of `pathfinding::prelude::dijkstra`: pop a cheapest
frontier entry, succeed when it reaches the goal, skip already-settled
nodes, otherwise settle the node and queue its successors. -/
def dloop (u : Universe) (pref : Preference) (goal : SystemId) :
    Nat → List SystemId → List SearchEntry → POut (Option (List Succ))
  | 0, _, _ => .ok none
  | fuel + 1, visited, frontier =>
      match selectMin frontier with
      | none => .ok none
      | some ((c, rp), rest) =>
          match rp with
          | [] => .ok none
          | nd :: _ =>
              if nd.id = goal then .ok (some rp.reverse)
              else if nd.id ∈ visited then dloop u pref goal fuel visited rest
              else
                match successor u pref nd with
                | .panic => .panic
                | .ok ss =>
                    dloop u pref goal fuel (nd.id :: visited)
                      (rest ++ ss.map (fun p => (c + p.2, p.1 :: rp)))

/-- Rust `pathfinding::prelude::dijkstra` as called in `PathBuilder::build`
(navigation.rs:241-248): start node `Succ { id: a, via: None }`, success on
reaching `goal`.  The fuel bounds the number of loop iterations and is large
enough never to run out (see the module comment). -/
def dijkstra (u : Universe) (pref : Preference) (start goal : SystemId) :
    POut (Option (List Succ)) :=
  dloop u pref goal (totalConnections u + 2) [] [(0, [⟨start, none⟩])]

/-- The element-accumulation loop over one segment's node list
(navigation.rs:249-259): a `Connection` element (counted as a jump) for every
`via`, then a `Waypoint` element for the segment's boundary systems and a
`System` element otherwise. -/
def pushElems (aid bid : SystemId) :
    List Succ → List PathElementInternal × Nat → List PathElementInternal × Nat
  | [], acc => acc
  | s :: rest, (elems, jc) =>
      let elems := match s.via with
        | some v => elems ++ [.Connection v]
        | none => elems
      let jc := match s.via with
        | some _ => jc + 1
        | none => jc
      let elems := if s.id = aid ∨ s.id = bid then elems ++ [.Waypoint s.id]
        else elems ++ [.System s.id]
      pushElems aid bid rest (elems, jc)

/-- The per-window loop of `PathBuilder::build` (navigation.rs:235-263):
the first failing window aborts the whole build with no result. -/
def buildWindows (u : Universe) (pref : Preference) :
    List (System × System) → List PathElementInternal × Nat →
      POut (Option (List PathElementInternal × Nat))
  | [], acc => .ok (some acc)
  | (a, b) :: rest, acc =>
      match dijkstra u pref a.id b.id with
      | .panic => .panic
      | .ok none => .ok none
      | .ok (some np) => buildWindows u pref rest (pushElems a.id b.id np acc)

/-- Rust `self.waypoints.windows(2)` (navigation.rs:237): consecutive pairs. -/
def windows2 : List System → List (System × System)
  | a :: b :: rest => (a, b) :: windows2 (b :: rest)
  | _ => []

/-- Rust `Vec::dedup` (navigation.rs:265): collapse each run of equal adjacent
elements to a single element (structurally recursive from the right, which
produces the same list as Rust's left-to-right dedup). -/
def dedupAdj : List PathElementInternal → List PathElementInternal
  | [] => []
  | a :: rest =>
      match dedupAdj rest with
      | [] => [a]
      | b :: bs => if a = b then b :: bs else a :: b :: bs

/-- Rust `PathBuilder::build` (navigation.rs:216-267). -/
def PathBuilder.build (u : Universe) (waypoints : List System)
    (pref : Preference) : POut (Option Path) :=
  match buildWindows u pref (windows2 waypoints) ([], 0) with
  | .panic => .panic
  | .ok none => .ok none
  | .ok (some (elems, jc)) => .ok (some ⟨dedupAdj elems, jc, waypoints⟩)

/-- Rust `Path::from` (navigation.rs:51-58): element `0`, `None` on a missing or
`Connection` element, `get_system(..).unwrap()` otherwise. -/
def Path.from_ (u : Universe) (p : Path) : POut (Option System) :=
  match p.path.get? 0 with
  | none => .ok none
  | some (.Connection _) => .ok none
  | some (.System id) =>
      match u.get_system id with
      | some s => .ok (some s)
      | none => .panic
  | some (.Waypoint id) =>
      match u.get_system id with
      | some s => .ok (some s)
      | none => .panic

/-- Overflow-checked `usize` subtraction: in builds with overflow checks
(debug/test, the Rust default there) underflow is a panic. -/
def usizeSub (a b : Nat) : POut Nat :=
  if b ≤ a then .ok (a - b) else .panic

/-- Rust `Path::to` (navigation.rs:60-67): element `self.path.len() - 1` — note
the checked subtraction — with the same element handling as `Path::from`. -/
def Path.to_ (u : Universe) (p : Path) : POut (Option System) :=
  match usizeSub p.path.length 1 with
  | .panic => .panic
  | .ok i =>
      match p.path.get? i with
      | none => .ok none
      | some (.Connection _) => .ok none
      | some (.System id) =>
          match u.get_system id with
          | some s => .ok (some s)
          | none => .panic
      | some (.Waypoint id) =>
          match u.get_system id with
          | some s => .ok (some s)
          | none => .panic

/-!
## Semantic notions used by the claims
-/

/-- One directed hop recorded in the universe's adjacency table. -/
def edgeStep (u : Universe) (a b : SystemId) : Prop :=
  ∃ c ∈ (u.get_connections a).getD [], c.to_ = b

/-- Rust `b` is connected to `a` by some route of recorded hops. -/
def Reaches (u : Universe) : SystemId → SystemId → Prop :=
  Relation.ReflTransGen (edgeStep u)

/-- Every stored connection points at an existing system (no dangling
edges). -/
def noDangling (u : Universe) : Prop :=
  ∀ a conns c, u.get_connections a = some conns → c ∈ conns →
    ∃ s, u.get_system c.to_ = some s

/-!
## Concrete fixtures
-/

/-- A nullsec origin system at the coordinate origin. -/
def sysO : System := ⟨⟨1⟩, "O", ⟨0, 0, 0⟩, ⟨-1⟩⟩

/-- A highsec system one meter away from `sysO`. -/
def sysH : System := ⟨⟨2⟩, "H", ⟨1, 0, 0⟩, ⟨1⟩⟩

/-- Two-system universe with no connections, for the range queries. -/
def cuRange : Universe :=
  Universe.new (SystemMap.ofList [sysO, sysH]) (AdjacentMap.ofList [])

/-- The three systems of the builder.rs doc example. -/
def sysA : System := ⟨⟨1⟩, "A", ⟨0, 0, 0⟩, ⟨1⟩⟩

def sysB : System := ⟨⟨2⟩, "B", ⟨0, 0, 0⟩, ⟨1/2⟩⟩

def sysC : System := ⟨⟨3⟩, "C", ⟨0, 0, 0⟩, ⟨0⟩⟩

/-- The 3-node chain `A → B → C` with Stargate/Local edges. -/
def cuChain : Universe :=
  Universe.new (SystemMap.ofList [sysA, sysB, sysC])
    (AdjacentMap.ofList
      [⟨⟨1⟩, ⟨2⟩, .Stargate .Local⟩, ⟨⟨2⟩, ⟨3⟩, .Stargate .Local⟩])

/-- An overlay on `cuChain` adding wormholes `1 → 3` and `3 → 1`. -/
def extC4 : ExtendedUniverse :=
  ⟨cuChain, AdjacentMap.ofList
    [⟨⟨1⟩, ⟨3⟩, .Wormhole .VeryLarge⟩, ⟨⟨3⟩, ⟨1⟩, .Wormhole .VeryLarge⟩]⟩

/-- Two highsec systems with no route between them. -/
def sysA6 : System := ⟨⟨1⟩, "A", ⟨0, 0, 0⟩, ⟨9/10⟩⟩

def sysB6 : System := ⟨⟨2⟩, "B", ⟨0, 0, 0⟩, ⟨9/10⟩⟩

/-- Rust `sysA6`/`sysB6` plus a dangling edge `1 → 3` (id 3 is no system). -/
def cuDangling : Universe :=
  Universe.new (SystemMap.ofList [sysA6, sysB6])
    (AdjacentMap.ofList [⟨⟨1⟩, ⟨3⟩, .Stargate .Local⟩])

/-- Rust `sysA6`/`sysB6` with no connections at all. -/
def cuDisconnected : Universe :=
  Universe.new (SystemMap.ofList [sysA6, sysB6]) (AdjacentMap.ofList [])

/-!
## C9: system classification
-/

/-- C9: classification is total below 32,000,000 — ids below 31,000,000 are
`KSpace`, ids in `[31,000,000, 32,000,000)` are `WSpace` — and any id at or
above 32,000,000 is a panic, never a silently chosen default class. -/
theorem C9_system_class (s : System) :
    (s.id.val < 31000000 → SystemClass.fromSystem s = .ok .KSpace)
    ∧ (31000000 ≤ s.id.val → s.id.val < 32000000 →
        SystemClass.fromSystem s = .ok .WSpace)
    ∧ (32000000 ≤ s.id.val → SystemClass.fromSystem s = .panic) := by
  unfold SystemClass.fromSystem
  refine ⟨fun h => ?_, fun h1 h2 => ?_, fun h => ?_⟩
  · rw [if_pos (by omega)]
  · rw [if_neg (by omega), if_pos (by omega)]
  · rw [if_neg (by omega), if_neg (by omega)]

/-- A wormhole-space system. -/
def sysW : System := ⟨⟨31500000⟩, "W", ⟨0, 0, 0⟩, ⟨-1⟩⟩

/-- A system whose id is outside both ranges. -/
def sysX : System := ⟨⟨32000000⟩, "X", ⟨0, 0, 0⟩, ⟨-1⟩⟩

theorem C9_system_class_witness :
    SystemClass.fromSystem sysA = .ok .KSpace
    ∧ SystemClass.fromSystem sysW = .ok .WSpace
    ∧ SystemClass.fromSystem sysX = .panic :=
  ⟨(C9_system_class sysA).1 (by decide),
   (C9_system_class sysW).2.1 (by decide) (by decide),
   (C9_system_class sysX).2.2 (by decide)⟩

/-!
## C8: bridge range formula
-/

/-- C8: the effective bridge range is `base + base × 0.2 × calibration` with
base 3.0 ly for a Titan and 4.0 ly for a BlackOps; the fuel-conservation
level has no effect, and a Titan at calibration 5 reaches 6.0 ly. -/
theorem C8_bridge_range (cal fc fc' : Nat) :
    (BridgeType.Titan ⟨cal, fc⟩).lightyears = ⟨3 + 3 * (1/5) * (cal : ℚ)⟩
    ∧ (BridgeType.BlackOps ⟨cal, fc⟩).lightyears = ⟨4 + 4 * (1/5) * (cal : ℚ)⟩
    ∧ (BridgeType.Titan ⟨cal, fc⟩).lightyears
        = (BridgeType.Titan ⟨cal, fc'⟩).lightyears
    ∧ (BridgeType.BlackOps ⟨cal, fc⟩).lightyears
        = (BridgeType.BlackOps ⟨cal, fc'⟩).lightyears
    ∧ (BridgeType.Titan ⟨5, fc⟩).lightyears = ⟨6⟩ := by
  refine ⟨rfl, rfl, rfl, rfl, ?_⟩
  simp only [BridgeType.lightyears, JumpdriveSkills.range_from_base,
    Lightyears.mk.injEq]
  norm_num

/-!
## C7: edge costs
-/

/-- C7: every edge considered by the search is charged 1 under `Shortest`;
under `Highsec`, 1 when the destination classifies as `Highsec` and 1000
otherwise; under `LowsecAndNullsec`, 1 when the destination classifies as
`Lowsec` or `Nullsec` and 1000 otherwise — always a positive integer. -/
theorem C7_preference_cost (u : Universe) (pref : Preference) (t : SystemId)
    (s : System) (h : u.get_system t = some s) :
    pref.cost u t = .ok (match pref with
      | .Shortest => 1
      | .Highsec =>
          if SecurityClass.ofSecurity s.security = .Highsec then 1 else 1000
      | .LowsecAndNullsec =>
          if SecurityClass.ofSecurity s.security = .Lowsec
              ∨ SecurityClass.ofSecurity s.security = .Nullsec then 1 else 1000)
    ∧ ∀ k, pref.cost u t = .ok k → 0 < k := by
  have hcost : pref.cost u t = .ok (match pref with
      | .Shortest => 1
      | .Highsec =>
          if SecurityClass.ofSecurity s.security = .Highsec then 1 else 1000
      | .LowsecAndNullsec =>
          if SecurityClass.ofSecurity s.security = .Lowsec
              ∨ SecurityClass.ofSecurity s.security = .Nullsec then 1
          else 1000) := by
    cases pref <;>
      simp only [Preference.cost, h] <;>
      cases hc : SecurityClass.ofSecurity s.security <;>
      simp [hc]
  refine ⟨hcost, fun k hk => ?_⟩
  rw [hcost] at hk
  simp only [POut.ok.injEq] at hk
  subst hk
  cases pref
  · exact Nat.one_pos
  · dsimp only; split <;> norm_num
  · dsimp only; split <;> norm_num

theorem C7_preference_cost_witness :
    Preference.Highsec.cost cuChain ⟨1⟩
      = .ok (if SecurityClass.ofSecurity sysA.security = .Highsec
          then 1 else 1000) :=
  (C7_preference_cost cuChain .Highsec ⟨1⟩ sysA (by decide)).1

/-!
## C4: overlay connection union
-/

/-- C4: the overlay's `get_connections` concatenates the base's edges with
the overlay's own edges (base first); if exactly one side has edges it
returns them unchanged, and if neither side has edges it returns `None`. -/
theorem C4_overlay_connections (e : ExtendedUniverse) (id : SystemId) :
    (∀ a b, e.universe_.get_connections id = some a →
        e.connections.get id = some b → e.get_connections id = some (a ++ b))
    ∧ (∀ a, e.universe_.get_connections id = some a →
        e.connections.get id = none → e.get_connections id = some a)
    ∧ (∀ b, e.universe_.get_connections id = none →
        e.connections.get id = some b → e.get_connections id = some b)
    ∧ (e.universe_.get_connections id = none → e.connections.get id = none →
        e.get_connections id = none) := by
  unfold ExtendedUniverse.get_connections
  refine ⟨fun a b ha hb => ?_, fun a ha hb => ?_, fun b ha hb => ?_,
    fun ha hb => ?_⟩ <;> rw [ha, hb]

theorem C4_overlay_connections_witness :
    extC4.get_connections ⟨1⟩
      = some ([⟨⟨1⟩, ⟨2⟩, .Stargate .Local⟩]
          ++ [⟨⟨1⟩, ⟨3⟩, .Wormhole .VeryLarge⟩])
    ∧ extC4.get_connections ⟨2⟩ = some [⟨⟨2⟩, ⟨3⟩, .Stargate .Local⟩]
    ∧ extC4.get_connections ⟨3⟩ = some [⟨⟨3⟩, ⟨1⟩, .Wormhole .VeryLarge⟩]
    ∧ extC4.get_connections ⟨4⟩ = none :=
  ⟨(C4_overlay_connections extC4 ⟨1⟩).1
      [⟨⟨1⟩, ⟨2⟩, .Stargate .Local⟩] [⟨⟨1⟩, ⟨3⟩, .Wormhole .VeryLarge⟩]
      (by decide) (by decide),
   (C4_overlay_connections extC4 ⟨2⟩).2.1 [⟨⟨2⟩, ⟨3⟩, .Stargate .Local⟩]
      (by decide) (by decide),
   (C4_overlay_connections extC4 ⟨3⟩).2.2.1 [⟨⟨3⟩, ⟨1⟩, .Wormhole .VeryLarge⟩]
      (by decide) (by decide),
   (C4_overlay_connections extC4 ⟨4⟩).2.2.2 (by decide) (by decide)⟩

/-!
## C10: bridge synthesis from an unknown origin
-/

/-- C10: if the origin id is unknown, `bridge` adds no connections at all and
completes without a panic (the model is a total function), so the resulting
overlay's extra adjacency for that origin is empty. -/
theorem C10_bridge_unknown_origin (u : Universe) (loc : SystemId)
    (t : BridgeType) (h : u.get_system loc = none) :
    (∀ b : ExtendedUniverseBuilder, b.universe_ = u → b.bridge loc t = b)
    ∧ ((ExtendedUniverseBuilder.new u).bridge loc t).build.connections.get loc
        = none := by
  have hr : u.get_systems_by_range loc (Meters.ofLightyears t.lightyears)
      = none := by
    unfold Universe.get_systems_by_range
    rw [h]
  have hid : ∀ b : ExtendedUniverseBuilder, b.universe_ = u →
      b.bridge loc t = b := by
    intro b hb
    unfold ExtendedUniverseBuilder.bridge
    rw [hb, hr]
    rfl
  refine ⟨hid, ?_⟩
  rw [hid (ExtendedUniverseBuilder.new u) rfl]
  rfl

theorem C10_bridge_unknown_origin_witness :
    ((ExtendedUniverseBuilder.new cuRange).bridge ⟨99⟩
        (.Titan ⟨5, 1⟩)).build.connections.get ⟨99⟩ = none :=
  (C10_bridge_unknown_origin cuRange ⟨99⟩ (.Titan ⟨5, 1⟩) (by decide)).2

/-!
## C1: the range query
-/

/-- The in-query security filter, in propositional form. -/
theorem cynoFilter_eq_true (s : System) :
    cynoFilter s = true ↔ SecurityClass.ofSecurity s.security ≠ .Highsec := by
  unfold cynoFilter
  cases h : SecurityClass.ofSecurity s.security <;> simp [h]

/-- C1 (amended): for a known origin, `get_systems_by_range` returns exactly
the systems within the radius **whose security class is Lowsec or Nullsec**
(Highsec systems are excluded even when in range); it returns `None` for an
unknown origin. -/
theorem C1_range_query (u : Universe) (f : SystemId) (r : Meters) :
    (u.get_system f = none → u.get_systems_by_range f r = none)
    ∧ (∀ o, u.get_system f = some o →
        ∃ l, u.get_systems_by_range f r = some l ∧
          ∀ s, s ∈ l ↔ s ∈ u.systems
              ∧ distance2 s.coordinate o.coordinate ≤ r.val * r.val
              ∧ SecurityClass.ofSecurity s.security ≠ .Highsec) := by
  constructor
  · intro h
    unfold Universe.get_systems_by_range
    rw [h]
  · intro o ho
    refine ⟨u.systems.filter (fun s =>
      decide (distance2 s.coordinate o.coordinate ≤ r.val * r.val)
        && cynoFilter s), ?_, ?_⟩
    · unfold Universe.get_systems_by_range
      rw [ho]
    · intro s
      rw [List.mem_filter]
      simp only [Bool.and_eq_true, decide_eq_true_eq, cynoFilter_eq_true,
        and_assoc]

/-- C1 counterexample to the claim as stated: `sysH` is a system of
`cuRange` one meter away from the origin `sysO`, well within the 10 m
radius, yet the query from `sysO` omits it (it is Highsec). -/
theorem C1_counterexample :
    cuRange.get_system ⟨2⟩ = some sysH
    ∧ distance2 sysH.coordinate sysO.coordinate ≤ 10 * 10
    ∧ cuRange.get_systems_by_range ⟨1⟩ ⟨10⟩ = some [sysO] := by decide

theorem C1_range_query_witness :
    ∃ l, cuRange.get_systems_by_range ⟨1⟩ ⟨10⟩ = some l ∧
      ∀ s, s ∈ l ↔ s ∈ cuRange.systems
          ∧ distance2 s.coordinate sysO.coordinate
              ≤ (⟨10⟩ : Meters).val * (⟨10⟩ : Meters).val
          ∧ SecurityClass.ofSecurity s.security ≠ .Highsec :=
  (C1_range_query cuRange ⟨1⟩ ⟨10⟩).2 sysO (by decide)

/-!
## C2: bridge synthesis
-/

/-- Rust `AdjacentMap.push` appends to the entry of the pushed connection's
source key and changes nothing else. -/
theorem AdjacentMap.get_push (m : AdjacentMap) (c : Connection) (k : SystemId) :
    (m.push c).get k
      = if k = c.from_ then some (((m.get c.from_).getD []) ++ [c])
        else m.get k := by
  induction m with
  | nil =>
    by_cases hk : k = c.from_
    · subst hk
      simp [AdjacentMap.push, AdjacentMap.get, List.find?]
    · have hk' : ¬ c.from_ = k := fun h => hk h.symm
      simp [AdjacentMap.push, AdjacentMap.get, List.find?, hk, hk']
  | cons p rest ih =>
    obtain ⟨pk, pv⟩ := p
    simp only [AdjacentMap.push]
    by_cases hp : pk = c.from_
    · rw [if_pos hp]
      by_cases hk : k = pk
      · subst hk
        subst hp
        simp [AdjacentMap.get, List.find?]
      · have hk' : ¬ pk = k := fun h => hk h.symm
        rw [if_neg (hp ▸ hk)]
        simp [AdjacentMap.get, List.find?, hk', hp ▸ hk]
    · rw [if_neg hp]
      by_cases hk : k = pk
      · subst hk
        have hkc : ¬ k = c.from_ := fun h => hp (h ▸ rfl)
        simp [AdjacentMap.get, List.find?, hkc]
      · have hk' : ¬ pk = k := fun h => hk h.symm
        have hp' : ¬ pk = c.from_ := hp
        simp only [AdjacentMap.get, List.find?, decide_eq_true_eq] at ih ⊢
        simp [hk', ih, hp']

/-- The bridge fold touches only the `location` entry, to which it appends
one `Bridge` connection per listed end system, in order. -/
theorem bridge_foldl_get (loc : SystemId) (t : BridgeType) :
    ∀ (ends : List System) (b : ExtendedUniverseBuilder) (k : SystemId),
      ((ends.foldl (fun acc e =>
          acc.connection ⟨loc, e.id, .Bridge t⟩) b).connections).get k
        = if k = loc ∧ ends ≠ [] then
            some (((b.connections.get loc).getD [])
              ++ ends.map (fun e => (⟨loc, e.id, .Bridge t⟩ : Connection)))
          else b.connections.get k := by
  intro ends
  induction ends with
  | nil => intro b k; simp
  | cons e es ih =>
    intro b k
    rw [List.foldl_cons, ih]
    by_cases hk : k = loc
    · subst hk
      by_cases hes : es = []
      · subst hes
        simp [ExtendedUniverseBuilder.connection, AdjacentMap.get_push]
      · simp [hes, ExtendedUniverseBuilder.connection, AdjacentMap.get_push]
    · simp [hk, ExtendedUniverseBuilder.connection, AdjacentMap.get_push]

/-- The bridge fold never touches the base universe reference. -/
theorem bridge_foldl_universe (loc : SystemId) (t : BridgeType) :
    ∀ (ends : List System) (b : ExtendedUniverseBuilder),
      (ends.foldl (fun acc e =>
          acc.connection ⟨loc, e.id, .Bridge t⟩) b).universe_ = b.universe_ := by
  intro ends
  induction ends with
  | nil => intro b; rfl
  | cons e es ih => intro b; rw [List.foldl_cons, ih]; rfl

/-- C2 (amended): bridge synthesis from a known origin adds — to the
overlay builder's own adjacency table only, never to the base universe — a
directed `Bridge` connection from the origin to exactly those systems within
the effective range whose security class is **not Highsec** (Highsec systems
in range receive no bridge edge). -/
theorem C2_bridge_synthesis (u : Universe) (loc : SystemId) (t : BridgeType)
    (o : System) (h : u.get_system loc = some o) :
    (∀ c ∈ (((ExtendedUniverseBuilder.new u).bridge loc t).connections.get
        loc).getD [],
      c.from_ = loc ∧ c.type_ = .Bridge t ∧
        ∃ s ∈ u.systems, c.to_ = s.id
          ∧ distance2 s.coordinate o.coordinate
              ≤ (Meters.ofLightyears t.lightyears).val
                * (Meters.ofLightyears t.lightyears).val
          ∧ SecurityClass.ofSecurity s.security ≠ .Highsec)
    ∧ (∀ s ∈ u.systems,
        distance2 s.coordinate o.coordinate
            ≤ (Meters.ofLightyears t.lightyears).val
              * (Meters.ofLightyears t.lightyears).val →
        SecurityClass.ofSecurity s.security ≠ .Highsec →
        ∃ c ∈ (((ExtendedUniverseBuilder.new u).bridge loc t).connections.get
            loc).getD [],
          c.to_ = s.id ∧ c.type_ = .Bridge t)
    ∧ ((ExtendedUniverseBuilder.new u).bridge loc t).universe_ = u
    ∧ (∀ k, k ≠ loc →
        (((ExtendedUniverseBuilder.new u).bridge loc t).connections).get k
          = none) := by
  have hends : u.get_systems_by_range loc (Meters.ofLightyears t.lightyears)
      = some (u.systems.filter (fun s =>
          decide (distance2 s.coordinate o.coordinate
              ≤ (Meters.ofLightyears t.lightyears).val
                * (Meters.ofLightyears t.lightyears).val)
            && cynoFilter s)) := by
    unfold Universe.get_systems_by_range
    rw [h]
  have hbr : (ExtendedUniverseBuilder.new u).bridge loc t
      = (u.systems.filter (fun s =>
          decide (distance2 s.coordinate o.coordinate
              ≤ (Meters.ofLightyears t.lightyears).val
                * (Meters.ofLightyears t.lightyears).val)
            && cynoFilter s)).foldl
          (fun acc e => acc.connection ⟨loc, e.id, .Bridge t⟩)
          (ExtendedUniverseBuilder.new u) := by
    unfold ExtendedUniverseBuilder.bridge
    rw [show (ExtendedUniverseBuilder.new u).universe_ = u from rfl, hends]
    rfl
  have hconns : (((ExtendedUniverseBuilder.new u).bridge loc t).connections.get
      loc).getD []
      = (u.systems.filter (fun s =>
          decide (distance2 s.coordinate o.coordinate
              ≤ (Meters.ofLightyears t.lightyears).val
                * (Meters.ofLightyears t.lightyears).val)
            && cynoFilter s)).map
          (fun e => (⟨loc, e.id, .Bridge t⟩ : Connection)) := by
    rw [hbr, bridge_foldl_get]
    by_cases hL : (u.systems.filter (fun s =>
        decide (distance2 s.coordinate o.coordinate
            ≤ (Meters.ofLightyears t.lightyears).val
              * (Meters.ofLightyears t.lightyears).val)
          && cynoFilter s)) = []
    · rw [hL]
      simp only [ne_eq, not_true_eq_false, and_false, if_false, List.map_nil]
      rfl
    · rw [if_pos ⟨rfl, hL⟩]
      rfl
  refine ⟨?_, ?_, ?_, ?_⟩
  · intro c hc
    rw [hconns] at hc
    obtain ⟨e, he, rfl⟩ := List.mem_map.mp hc
    rw [List.mem_filter] at he
    obtain ⟨hmem, hcond⟩ := he
    simp only [Bool.and_eq_true, decide_eq_true_eq, cynoFilter_eq_true] at hcond
    exact ⟨rfl, rfl, e, hmem, rfl, hcond.1, hcond.2⟩
  · intro s hs hd hc
    have hmem : s ∈ (u.systems.filter (fun s =>
        decide (distance2 s.coordinate o.coordinate
            ≤ (Meters.ofLightyears t.lightyears).val
              * (Meters.ofLightyears t.lightyears).val)
          && cynoFilter s)) := by
      rw [List.mem_filter]
      refine ⟨hs, ?_⟩
      simp only [Bool.and_eq_true, decide_eq_true_eq, cynoFilter_eq_true]
      exact ⟨hd, hc⟩
    refine ⟨⟨loc, s.id, .Bridge t⟩, ?_, rfl, rfl⟩
    rw [hconns]
    exact List.mem_map.mpr ⟨s, hmem, rfl⟩
  · rw [hbr, bridge_foldl_universe]
    rfl
  · intro k hk
    rw [hbr, bridge_foldl_get, if_neg (fun hh => hk hh.1)]
    rfl

/-- C2 counterexample to the claim as stated: a Titan bridge (calibration 5,
fuel conservation 1, effective range 6 ly) synthesized at `sysO` yields only
the self-edge — `sysH`, one meter away and far inside range, gets no bridge
connection because it is Highsec. -/
theorem C2_counterexample :
    distance2 sysH.coordinate sysO.coordinate
        ≤ (Meters.ofLightyears (BridgeType.Titan ⟨5, 1⟩).lightyears).val
          * (Meters.ofLightyears (BridgeType.Titan ⟨5, 1⟩).lightyears).val
    ∧ cuRange.get_system ⟨2⟩ = some sysH
    ∧ ((ExtendedUniverseBuilder.new cuRange).bridge ⟨1⟩
          (.Titan ⟨5, 1⟩)).build.connections.get ⟨1⟩
        = some [⟨⟨1⟩, ⟨1⟩, .Bridge (.Titan ⟨5, 1⟩)⟩] := by decide

theorem C2_bridge_synthesis_witness :
    ((ExtendedUniverseBuilder.new cuRange).bridge ⟨1⟩
        (.Titan ⟨5, 1⟩)).universe_ = cuRange :=
  (C2_bridge_synthesis cuRange ⟨1⟩ (.Titan ⟨5, 1⟩) sysO (by decide)).2.2.1

/-!
## C5: the concrete 3-node path
-/

/-- C5: on the 3-node chain `A → B → C` (Stargate/Local edges), building a
path with waypoints `[A, C]` under `Shortest` yields jump count 2 and the
element sequence
`[Waypoint A, Connection Stargate(Local), System B, Connection
Stargate(Local), Waypoint C]`. -/
theorem C5_chain_path :
    PathBuilder.build cuChain [sysA, sysC] .Shortest
      = .ok (some ⟨[.Waypoint ⟨1⟩, .Connection (.Stargate .Local),
          .System ⟨2⟩, .Connection (.Stargate .Local), .Waypoint ⟨3⟩],
          2, [sysA, sysC]⟩) := by decide

/-!
## C3: empty paths and the `Path::to` accessor
-/

/-- C3 (code evaluated at the failing input): building with fewer than 2
waypoints succeeds with an empty, no-op path, and on that empty path
`Path::from` returns `None` — but `Path::to` computes the element index as
`self.path.len() - 1`, and on the empty path this `usize` subtraction
underflows, which is a panic under overflow checks (the Rust default for
debug and test builds) rather than the specified `None`. -/
theorem C3_empty_path_accessors :
    PathBuilder.build cuChain [] .Shortest = .ok (some ⟨[], 0, []⟩)
    ∧ PathBuilder.build cuChain [sysA] .Shortest
        = .ok (some ⟨[], 0, [sysA]⟩)
    ∧ Path.from_ cuChain ⟨[], 0, []⟩ = .ok none
    ∧ Path.to_ cuChain ⟨[], 0, []⟩ = .panic := by decide

/-!
## C6: unreachable waypoint pairs
-/

/-- Rust `selectMin` returns an element of the frontier and keeps only elements
of the frontier. -/
theorem selectMin_mem : ∀ {l : List SearchEntry} {e : SearchEntry}
    {rest : List SearchEntry}, selectMin l = some (e, rest) →
    e ∈ l ∧ ∀ x ∈ rest, x ∈ l := by
  intro l
  induction l with
  | nil => intro e rest h; simp [selectMin] at h
  | cons a as ih =>
    intro e rest h
    simp only [selectMin] at h
    cases hsel : selectMin as with
    | none =>
      simp only [hsel, Option.some.injEq, Prod.mk.injEq] at h
      obtain ⟨rfl, rfl⟩ := h
      exact ⟨List.mem_cons_self a as, by simp⟩
    | some m =>
      obtain ⟨m1, rest'⟩ := m
      simp only [hsel] at h
      by_cases hle : a.1 ≤ m1.1
      · rw [if_pos hle] at h
        simp only [Option.some.injEq, Prod.mk.injEq] at h
        obtain ⟨rfl, rfl⟩ := h
        exact ⟨List.mem_cons_self a as, fun x hx => List.mem_cons_of_mem a hx⟩
      · rw [if_neg hle] at h
        simp only [Option.some.injEq, Prod.mk.injEq] at h
        obtain ⟨rfl, rfl⟩ := h
        obtain ⟨hm, hrest⟩ := ih hsel
        refine ⟨List.mem_cons_of_mem a hm, ?_⟩
        intro x hx
        rcases List.mem_cons.mp hx with rfl | hx'
        · exact List.mem_cons_self x as
        · exact List.mem_cons_of_mem a (hrest x hx')

/-- A cost is computable whenever the destination system exists. -/
theorem cost_ok {u : Universe} {t : SystemId} (pref : Preference)
    (h : ∃ s, u.get_system t = some s) : ∃ k, pref.cost u t = .ok k := by
  obtain ⟨s, hs⟩ := h
  cases pref
  · exact ⟨1, rfl⟩
  · simp only [Preference.cost, hs]
    cases SecurityClass.ofSecurity s.security
    · exact ⟨1, rfl⟩
    · exact ⟨1000, rfl⟩
    · exact ⟨1000, rfl⟩
  · simp only [Preference.cost, hs]
    cases SecurityClass.ofSecurity s.security
    · exact ⟨1000, rfl⟩
    · exact ⟨1, rfl⟩
    · exact ⟨1, rfl⟩

/-- With computable costs, the successor list of a connection list is
produced without a panic, and each successor comes from a connection. -/
theorem succCosts_ok {u : Universe} (pref : Preference) :
    ∀ (conns : List Connection),
      (∀ c ∈ conns, ∃ s, u.get_system c.to_ = some s) →
      ∃ l, succCosts u pref conns = .ok l
        ∧ ∀ p ∈ l, ∃ c ∈ conns, p.1.id = c.to_ := by
  intro conns
  induction conns with
  | nil => intro _; exact ⟨[], rfl, by simp⟩
  | cons c cs ih =>
    intro hAll
    obtain ⟨k, hk⟩ := cost_ok pref (hAll c (List.mem_cons_self c cs))
    obtain ⟨l, hl, hp⟩ := ih (fun c' h' => hAll c' (List.mem_cons_of_mem c h'))
    refine ⟨(⟨c.to_, some c.type_⟩, k) :: l, ?_, ?_⟩
    · simp only [succCosts, hk, hl]
    · intro p hp'
      rcases List.mem_cons.mp hp' with rfl | hmem
      · exact ⟨c, List.mem_cons_self c cs, rfl⟩
      · obtain ⟨c', hc', hid⟩ := hp p hmem
        exact ⟨c', List.mem_cons_of_mem c hc', hid⟩

/-- In a universe without dangling edges the successor closure never
panics, and every successor is one recorded hop away. -/
theorem successor_ok {u : Universe} (pref : Preference) (hU : noDangling u)
    (nd : Succ) :
    ∃ ss, successor u pref nd = .ok ss
      ∧ ∀ p ∈ ss, edgeStep u nd.id p.1.id := by
  unfold successor
  cases hc : u.get_connections nd.id with
  | none => exact ⟨[], rfl, by simp⟩
  | some conns =>
    obtain ⟨l, hl, hp⟩ := succCosts_ok pref conns
      (fun c hcc => hU nd.id conns c hc hcc)
    refine ⟨l, hl, ?_⟩
    intro p hpl
    obtain ⟨c, hcc, hid⟩ := hp p hpl
    exact ⟨c, by rw [hc]; exact hcc, hid.symm⟩

/-- In a universe without dangling edges the search loop never panics. -/
theorem dloop_ok {u : Universe} (pref : Preference) (goal : SystemId)
    (hU : noDangling u) :
    ∀ (fuel : Nat) (visited : List SystemId) (frontier : List SearchEntry),
      ∃ r, dloop u pref goal fuel visited frontier = .ok r := by
  intro fuel
  induction fuel with
  | zero => intro visited frontier; exact ⟨none, rfl⟩
  | succ fuel ih =>
    intro visited frontier
    simp only [dloop]
    cases hsel : selectMin frontier with
    | none => exact ⟨none, rfl⟩
    | some pr =>
      obtain ⟨⟨c, rp⟩, rest⟩ := pr
      cases rp with
      | nil => exact ⟨none, by simp [hsel]⟩
      | cons nd tl =>
        simp only [hsel]
        by_cases hg : nd.id = goal
        · rw [if_pos hg]
          exact ⟨some (nd :: tl).reverse, rfl⟩
        · rw [if_neg hg]
          by_cases hv : nd.id ∈ visited
          · rw [if_pos hv]
            exact ih visited rest
          · rw [if_neg hv]
            obtain ⟨ss, hss, _⟩ := successor_ok pref hU nd
            rw [hss]
            exact ih _ _

/-- If the goal is not connected to the start then no frontier whose every
entry carries a nonempty path ending at a start-connected node can make the
loop succeed. -/
theorem dloop_not_goal {u : Universe} (pref : Preference)
    (start goal : SystemId) (hU : noDangling u)
    (hGoal : ¬ Reaches u start goal) :
    ∀ (fuel : Nat) (visited : List SystemId) (frontier : List SearchEntry),
      (∀ e ∈ frontier, ∃ nd tl, e.2 = nd :: tl ∧ Reaches u start nd.id) →
      ∀ pth, dloop u pref goal fuel visited frontier ≠ .ok (some pth) := by
  intro fuel
  induction fuel with
  | zero => intro visited frontier _ pth h; simp [dloop] at h
  | succ fuel ih =>
    intro visited frontier hinv pth
    simp only [dloop]
    cases hsel : selectMin frontier with
    | none =>
      intro hcon
      simp [hsel] at hcon
    | some pr =>
      obtain ⟨⟨c, rp⟩, rest⟩ := pr
      obtain ⟨hmem, hsub⟩ := selectMin_mem hsel
      obtain ⟨nd, tl, hrp, hreach⟩ := hinv (c, rp) hmem
      simp only at hrp
      subst hrp
      simp only [hsel]
      rw [if_neg (fun hg : nd.id = goal => hGoal (hg ▸ hreach))]
      by_cases hv : nd.id ∈ visited
      · rw [if_pos hv]
        exact ih visited rest (fun e he => hinv e (hsub e he)) pth
      · rw [if_neg hv]
        obtain ⟨ss, hss, hedge⟩ := successor_ok pref hU nd
        rw [hss]
        refine ih (nd.id :: visited) _ ?_ pth
        intro e he
        rcases List.mem_append.mp he with he' | he'
        · exact hinv e (hsub e he')
        · obtain ⟨p, hp, rfl⟩ := List.mem_map.mp he'
          exact ⟨p.1, nd :: tl, rfl, hreach.tail (hedge p hp)⟩

/-- The search never panics in a universe without dangling edges. -/
theorem dijkstra_ok {u : Universe} (pref : Preference) (a b : SystemId)
    (hU : noDangling u) : ∃ r, dijkstra u pref a b = .ok r :=
  dloop_ok pref b hU _ _ _

/-- When the goal has no connecting route from the start, the search
cleanly reports no result. -/
theorem dijkstra_none {u : Universe} (pref : Preference) {a b : SystemId}
    (hU : noDangling u) (h : ¬ Reaches u a b) :
    dijkstra u pref a b = .ok none := by
  obtain ⟨r, hr⟩ := dijkstra_ok pref a b hU
  cases r with
  | none => exact hr
  | some pth =>
    refine absurd hr (dloop_not_goal pref a b hU h _ _ _ ?_ pth)
    intro e he
    rcases List.mem_singleton.mp he with rfl
    exact ⟨⟨a, none⟩, [], rfl, Relation.ReflTransGen.refl⟩

/-- If some listed window is unreachable, the window loop yields `None`
regardless of the accumulator (and never panics). -/
theorem buildWindows_none {u : Universe} (pref : Preference)
    (hU : noDangling u) :
    ∀ (pairs : List (System × System)) (acc : List PathElementInternal × Nat),
      (∃ p ∈ pairs, ¬ Reaches u p.1.id p.2.id) →
      buildWindows u pref pairs acc = .ok none := by
  intro pairs
  induction pairs with
  | nil =>
    intro acc h
    obtain ⟨p, hp, _⟩ := h
    simp at hp
  | cons ab rest ih =>
    intro acc h
    obtain ⟨a, b⟩ := ab
    simp only [buildWindows]
    by_cases hR : Reaches u a.id b.id
    · obtain ⟨r, hr⟩ := dijkstra_ok pref a.id b.id hU
      rw [hr]
      cases r with
      | none => rfl
      | some np =>
        obtain ⟨p, hp, hnr⟩ := h
        rcases List.mem_cons.mp hp with rfl | hp'
        · exact absurd hR hnr
        · exact ih _ ⟨p, hp', hnr⟩
    · rw [dijkstra_none pref hU hR]

/-- C6 (amended): in a universe whose connections all point at existing
systems (no dangling edges), if any consecutive waypoint pair has no
connecting route then `PathBuilder::build` returns `None` — never a partial
path over the remaining pairs and never a panic.  (Without the proviso the
build can panic: costing a dangling edge under a security preference
unwraps a missing system, see the counterexample.) -/
theorem C6_unreachable_build (u : Universe) (ws : List System)
    (pref : Preference) (hU : noDangling u)
    (h : ∃ p ∈ windows2 ws, ¬ Reaches u p.1.id p.2.id) :
    PathBuilder.build u ws pref = .ok none := by
  unfold PathBuilder.build
  rw [buildWindows_none pref hU (windows2 ws) ([], 0) h]

/-- In `cuDangling`, system 2 has no connecting route from system 1. -/
theorem cuDangling_no_route : ¬ Reaches cuDangling ⟨1⟩ ⟨2⟩ := by
  intro h
  rcases Relation.ReflTransGen.cases_head h with heq | ⟨x, hx, h2⟩
  · exact absurd heq (by decide)
  · obtain ⟨c, hc, hto⟩ := hx
    have hl : (cuDangling.get_connections ⟨1⟩).getD []
        = [⟨⟨1⟩, ⟨3⟩, .Stargate .Local⟩] := by decide
    rw [hl] at hc
    rcases List.mem_singleton.mp hc with rfl
    rw [show (⟨⟨1⟩, ⟨3⟩, .Stargate .Local⟩ : Connection).to_ = ⟨3⟩ from rfl]
      at hto
    subst hto
    rcases Relation.ReflTransGen.cases_head h2 with heq | ⟨y, hy, h3⟩
    · exact absurd heq (by decide)
    · obtain ⟨c', hc', _⟩ := hy
      have hl3 : (cuDangling.get_connections ⟨3⟩).getD [] = [] := by decide
      rw [hl3] at hc'
      cases hc'

/-- C6 counterexample to the claim as stated: in `cuDangling` the waypoint
pair (A, B) is unreachable, yet the build under the `Highsec` preference
panics — costing the dangling edge `1 → 3` unwraps a missing system —
instead of yielding the absent result the claim demands for every
universe. -/
theorem C6_counterexample :
    (¬ Reaches cuDangling ⟨1⟩ ⟨2⟩)
    ∧ PathBuilder.build cuDangling [sysA6, sysB6] .Highsec = .panic :=
  ⟨cuDangling_no_route, by decide⟩

/-- In `cuDisconnected`, system 2 has no connecting route from system 1. -/
theorem cuDisconnected_no_route : ¬ Reaches cuDisconnected ⟨1⟩ ⟨2⟩ := by
  intro h
  rcases Relation.ReflTransGen.cases_head h with heq | ⟨x, hx, h2⟩
  · exact absurd heq (by decide)
  · obtain ⟨c, hc, _⟩ := hx
    have hl : (cuDisconnected.get_connections ⟨1⟩).getD [] = [] := by decide
    rw [hl] at hc
    cases hc

/-- Rust `cuDisconnected` stores no connections at all, hence none dangling. -/
theorem cuDisconnected_noDangling : noDangling cuDisconnected := by
  intro a conns c h hc
  rw [show cuDisconnected.get_connections a = none from rfl] at h
  cases h

theorem C6_unreachable_build_witness :
    PathBuilder.build cuDisconnected [sysA6, sysB6] .Shortest = .ok none :=
  C6_unreachable_build cuDisconnected [sysA6, sysB6] .Shortest
    cuDisconnected_noDangling
    ⟨(sysA6, sysB6), by decide, cuDisconnected_no_route⟩

end NewEden
